import Mathlib

/-!
# provider-dna: reconciler scaffold and Firewall connector

A shallow embedding of

* `pkg/runtime/resource/resource.go` (`DnaKind`, `MustCreateObject`),
* `pkg/runtime/reconciler/dna/reconciler.go` (timing constants, `ControllerName`,
  the observation/creation/update records, `Reconciler`, its options,
  `NewReconciler`, `Reconciler.Reconcile`),
* `internal/controller/compute/firewall.go` (`firewallConnector` and its four
  operations),
* `apis/compute/v1alpha1/firewall_types.go` (`Firewall`, `FirewallList`).

Conventions of the embedding.

* A Go interface value is an `Option` of its dynamic value: `none` is the nil
  interface. A Go pointer is an `Option` of the pointee: `none` is the nil pointer.
* A function that may panic returns `Except PanicValue _`.
* A method that receives a resource by reference returns the resource as it is
  after the call, next to its Go results.
* `time.Duration` is an `Int` counting nanoseconds; run-time addition wraps at
  64 bits (`Duration.add`).
* Collaborators reached through an interface of another module (logger, event
  recorder, object creater, kube client) answer every call when they are not
  nil; what they answer is recorded, not interpreted. The logger and the recorder
  of a Reconciler are interface values that an option can set to nil.
* Time is not run: where the moment of an event matters, the time that passes
  is an argument (`cancelledAfter`).
-/

namespace ProviderDna

/-! ## time.Duration -/

/-- A `time.Duration`: a signed 64-bit count of nanoseconds. -/
abbrev Duration := Int

/-- Smallest int64. -/
def minInt64 : Int := -(2 ^ 63)

/-- Largest int64. -/
def maxInt64 : Int := 2 ^ 63 - 1

/-- Two-complement wrap-around of a mathematical integer into int64. -/
def wrapInt64 (x : Int) : Int := (x + 2 ^ 63) % 2 ^ 64 - 2 ^ 63

/-- Run-time `+` on `time.Duration` values: int64 addition, silently wrapping. -/
def Duration.add (a b : Duration) : Duration := wrapInt64 (a + b)

/-- Constant `time.Second`, in nanoseconds. -/
def Second : Duration := 1000000000

/-- Constant `time.Minute`, in nanoseconds. -/
def Minute : Duration := 60 * Second

/-- Constant `reconcileGracePeriod = 30 * time.Second`. -/
def reconcileGracePeriod : Duration := 30 * Second

/-- Constant `reconcileTimeout = 1 * time.Minute`. -/
def reconcileTimeout : Duration := 1 * Minute

/-- Constant `defaultpollInterval = 1 * time.Minute`. -/
def defaultpollInterval : Duration := 1 * Minute

/-- Constant `defaultGracePeriod = 30 * time.Second`. -/
def defaultGracePeriod : Duration := 30 * Second

/-! ## Errors and panics -/

/-- An `error` value as built by `errors.New`: its message. -/
structure Error where
  msg : String
deriving DecidableEq, Repr

/-- What a panic carries: the error handed to `panic(err)`, the run-time
error of a failed single-value type assertion (with the dynamic type found,
`none` for a nil interface), or the run-time error of a method call on a nil
interface value (nil pointer dereference). -/
inductive PanicValue where
  | err (e : Error)
  | typeAssertion (found : Option String)
  | nilDereference
deriving DecidableEq, Repr

/-! ## Resource model (`apis/compute/v1alpha1`, `pkg/runtime/resource`) -/

/-- Type `schema.GroupVersionKind`. -/
structure GroupVersionKind where
  Group : String
  Version : String
  Kind : String
deriving DecidableEq, Repr

/-- Declaration `type DnaKind schema.GroupVersionKind`; the conversion
`schema.GroupVersionKind(of)` is the identity. -/
abbrev DnaKind := GroupVersionKind

/-- Type `metav1.TypeMeta`. -/
structure TypeMeta where
  Kind : String
  APIVersion : String
deriving DecidableEq, Repr

/-- Type `metav1.ObjectMeta`, the fields that identify an object. -/
structure ObjectMeta where
  Name : String
  Namespace : String
  Annotations : List (String × String)
deriving DecidableEq, Repr

/-- Type `xpv1.ResourceSpec` (embedded inline in `FirewallSpec`). -/
structure ResourceSpec where
  DeletionPolicy : String
  ProviderConfigReference : Option String
deriving DecidableEq, Repr

/-- Type `xpv1.ResourceStatus` (embedded inline in `FirewallStatus`): the
condition list, each condition a (type, status) pair. -/
structure ResourceStatus where
  Conditions : List (String × String)
deriving DecidableEq, Repr

/-- A `FirewallSpec` defines the desired state of a Firewall. -/
structure FirewallSpec where
  ResourceSpec : ResourceSpec
deriving DecidableEq, Repr

/-- A `FirewallStatus` represents the observed state of a Firewall. -/
structure FirewallStatus where
  ResourceStatus : ResourceStatus
deriving DecidableEq, Repr

/-- A `Firewall` is a dna resource that represents a crossplane Firewall. -/
structure Firewall where
  TypeMeta : TypeMeta
  ObjectMeta : ObjectMeta
  Spec : FirewallSpec
  Status : FirewallStatus
deriving DecidableEq, Repr

/-- Type `metav1.ListMeta`. -/
structure ListMeta where
  ResourceVersion : String
  Continue : String
deriving DecidableEq, Repr

/-- A `FirewallList` contains a list of Firewall. It embeds `ListMeta`, not
`ObjectMeta`, so it does not have the methods of `metav1.Object`. -/
structure FirewallList where
  TypeMeta : TypeMeta
  ListMeta : ListMeta
  Items : List Firewall
deriving DecidableEq, Repr

/-- The non-nil dynamic values of interface `resource.Dna` (`metav1.Object` and
`runtime.Object`): a `*v1alpha1.Firewall` (possibly a nil pointer), or a pointer
to a resource type of another package. -/
inductive Dna where
  | firewall (p : Option Firewall)
  | other (typeName : String) (om : ObjectMeta)
deriving DecidableEq, Repr

/-- The non-nil dynamic values of interface `runtime.Object`: those that also
implement `resource.Dna`, a `*v1alpha1.FirewallList`, or a value of another type
without the methods of `metav1.Object`. -/
inductive RuntimeObject where
  | dna (d : Dna)
  | firewallList (p : Option FirewallList)
  | other (typeName : String)
deriving DecidableEq, Repr

/-- Name of the dynamic type of a `resource.Dna` value. -/
def Dna.typeName : Dna → String
  | .firewall _ => "*v1alpha1.Firewall"
  | .other n _ => n

/-- Name of the dynamic type of a `runtime.Object` value. -/
def RuntimeObject.typeName : RuntimeObject → String
  | .dna d => d.typeName
  | .firewallList _ => "*v1alpha1.FirewallList"
  | .other n => n

/-- The single-value type assertion `obj.(resource.Dna)` on a `runtime.Object`
interface value: it panics on the nil interface and on a dynamic type that does
not implement `resource.Dna`. -/
def assertDna : Option RuntimeObject → Except PanicValue Dna
  | some (.dna d) => .ok d
  | some o => .error (.typeAssertion (some o.typeName))
  | none => .error (.typeAssertion none)

/-- The comma-ok type assertion `mg.(*v1alpha1.Firewall)` on a `resource.Dna`
interface value: `some dr` when the dynamic type is `*v1alpha1.Firewall` (with
`dr` the pointer, possibly nil), `none` when `ok` is false. -/
def assertFirewall : Option Dna → Option (Option Firewall)
  | some (.firewall p) => some p
  | _ => none

/-- Interface `runtime.ObjectCreater`: `New` answers with an object and an
error, as a Go method with two results does. -/
structure ObjectCreater where
  New : GroupVersionKind → Option RuntimeObject × Option Error

/-- Function `resource.MustCreateObject`: a new object of the supplied kind; it
panics if the kind is unknown to the supplied creater. -/
def MustCreateObject (kind : GroupVersionKind) (oc : ObjectCreater) :
    Except PanicValue (Option RuntimeObject) :=
  match oc.New kind with
  | (_, some err) => .error (.err err)
  | (obj, none) => .ok obj

/-! ## Package `dna`: contract records -/

/-- Function `ControllerName`: the recommended name for controllers that
reconcile a particular kind of dna resource. `ToLower` stands for the standard
library function `strings.ToLower`. -/
def ControllerName (ToLower : String → String) (kind : String) : String :=
  "managed/" ++ ToLower kind

/-- A `CrossplaneObservation` is the result of an observation of a crossplane
resource. The field defaults are the Go zero values. -/
structure CrossplaneObservation where
  ResourceExists : Bool := false
  ResourceUpToDate : Bool := false
  ResourceLateInitialized : Bool := false
  Diff : String := ""
deriving DecidableEq, Repr

/-- A `CrossplaneCreation` is the result of the creation of a crossplane
resource. -/
structure CrossplaneCreation where
  CrossplaneNameAssigned : Bool := false
deriving DecidableEq, Repr

/-- A `CrossplaneUpdate` is the result of an update to a crossplane resource
(a struct without fields). -/
structure CrossplaneUpdate where
deriving DecidableEq, Repr

/-- One call of `fmt.Printf(format, dr)` on standard output. -/
structure Printf where
  format : String
  arg : Option Firewall
deriving DecidableEq, Repr

/-- What one call of a `Client` operation leaves behind: the resource after the
call, the value returned, the error returned (`none` is nil) and what was
printed. -/
structure CallOutcome (α : Type) where
  mg : Option Dna
  value : α
  err : Option Error
  stdout : List Printf

/-- Interface `Client`: manages the lifecycle of a crossplane resource. The
`context.Context` argument, which no implementation in this repository reads, is
left out. -/
structure Client where
  Observe : Option Dna → CallOutcome CrossplaneObservation
  Create : Option Dna → CallOutcome CrossplaneCreation
  Update : Option Dna → CallOutcome CrossplaneUpdate
  Delete : Option Dna → CallOutcome Unit

/-! ## Package `dna`: the Reconciler -/

/-- Type `reconcile.Request`: the namespaced name of the object to reconcile. -/
structure Request where
  Namespace : String
  Name : String
deriving DecidableEq, Repr

/-- Type `reconcile.Result`. -/
structure Result where
  Requeue : Bool := false
  RequeueAfter : Duration := 0
deriving DecidableEq, Repr

/-- A value handed to a logger under a key. -/
inductive LogValue where
  | str (s : String)
  | request (req : Request)
deriving DecidableEq, Repr

/-- The non-nil values of interface `logging.Logger`: the logger of
`logging.NewNopLogger()`, a logger supplied by the caller, or the logger
obtained from another by `WithValues`. -/
inductive Logger where
  | nop
  | sink (name : String)
  | withValues (l : Logger) (key : String) (value : LogValue)
deriving DecidableEq, Repr

/-- Method `Logger.WithValues(key, value)`. -/
def Logger.WithValues (l : Logger) (key : String) (value : LogValue) : Logger :=
  .withValues l key value

/-- The non-nil values of interface `event.Recorder`: the recorder of
`event.NewNopRecorder()` or one supplied by the caller. -/
inductive Recorder where
  | nop
  | api (source : String)
deriving DecidableEq, Repr

/-- A `client.Client` of controller-runtime, known by a handle only. -/
structure KubeClient where
  handle : String
deriving DecidableEq, Repr

/-- A `manager.Manager`, as far as `NewReconciler` consults it. -/
structure Manager where
  GetScheme : ObjectCreater
  GetClient : KubeClient

/-- A `Reconciler` reconciles managed resources. Its `log` and `record` are
interface values: `none` is nil. -/
structure Reconciler where
  client : KubeClient
  newDna : Unit → Except PanicValue Dna
  pollInterval : Duration
  timeout : Duration
  creationGracePeriod : Duration
  log : Option Logger
  record : Option Recorder

/-- A `ReconcilerOption` configures a Reconciler: a function that receives the
Reconciler by reference, here a function to the Reconciler after the call. -/
abbrev ReconcilerOption := Reconciler → Reconciler

/-- Option `WithTimeout`. -/
def WithTimeout (duration : Duration) : ReconcilerOption :=
  fun r => { r with timeout := duration }

/-- Option `WithPollInterval`. -/
def WithPollInterval (after : Duration) : ReconcilerOption :=
  fun r => { r with pollInterval := after }

/-- Option `WithCreationGracePeriod`. -/
def WithCreationGracePeriod (d : Duration) : ReconcilerOption :=
  fun r => { r with creationGracePeriod := d }

/-- Option `WithLogger`; it stores the logger it is given, nil included. -/
def WithLogger (l : Option Logger) : ReconcilerOption :=
  fun r => { r with log := l }

/-- Option `WithRecorder`; it stores the recorder it is given, nil included. -/
def WithRecorder (er : Option Recorder) : ReconcilerOption :=
  fun r => { r with record := er }

/-- Function `NewReconciler`. The closure `nm` creates an object of the kind
and asserts it to `resource.Dna`; it is called once, and its panic is the panic
of `NewReconciler`. Then the defaults are set and the options run in order. -/
def NewReconciler (m : Manager) (of : DnaKind) (o : List ReconcilerOption) :
    Except PanicValue Reconciler :=
  let nm : Unit → Except PanicValue Dna := fun _ =>
    match MustCreateObject of m.GetScheme with
    | .error p => .error p
    | .ok obj => assertDna obj
  match nm () with
  | .error p => .error p
  | .ok _ =>
    let r : Reconciler :=
      { client := m.GetClient
        newDna := nm
        pollInterval := defaultpollInterval
        creationGracePeriod := defaultGracePeriod
        timeout := reconcileTimeout
        log := some Logger.nop
        record := some Recorder.nop }
    .ok (o.foldl (fun r ro => ro r) r)

/-- What a reconcile pass does that is visible from outside, in order. -/
inductive Effect where
  | logDebug (l : Logger) (msg : String)
  | contextWithTimeout (timeout : Duration)
  | cancel (timeout : Duration)
  | observe (mg : Option Dna)
  | create (mg : Option Dna)
  | update (mg : Option Dna)
  | delete (mg : Option Dna)
deriving DecidableEq, Repr

/-- Whether an effect is a call of one of the four `Client` operations. -/
def Effect.isClientCall : Effect → Bool
  | .observe _ => true
  | .create _ => true
  | .update _ => true
  | .delete _ => true
  | _ => false

/-- The two results of `Reconcile` and the effects of the pass. -/
structure ReconcileOutcome where
  result : Result
  err : Option Error
  effects : List Effect
deriving DecidableEq, Repr

/-- Method `Reconciler.Reconcile` (its context argument is the blank
identifier). Its first statement calls `r.log.WithValues`, which panics on a nil
logger, before anything else happens. Otherwise it logs at debug level, creates
a context with timeout `r.timeout+reconcileGracePeriod` on
`context.Background()` that it does not use, and returns the empty result and a
nil error; the deferred `cancel` of the context runs at the return. -/
def Reconciler.Reconcile (r : Reconciler) (req : Request) :
    Except PanicValue ReconcileOutcome :=
  match r.log with
  | none => .error .nilDereference
  | some l =>
    let log := l.WithValues "request" (.request req)
    let d := Duration.add r.timeout reconcileGracePeriod
    .ok { result := {}
          err := none
          effects := [.logDebug log "Reconciling", .contextWithTimeout d, .cancel d] }

/-- The context that a pass creates, read off its effects: the timeout handed
to `context.WithTimeout`, and whether the pass calls the cancel function of the
context afterwards. -/
def contextOf : List Effect → Option (Duration × Bool)
  | [] => none
  | .contextWithTimeout d :: rest => some (d, decide (Effect.cancel d ∈ rest))
  | _ :: rest => contextOf rest

/-- Behaviour of the standard library for a context made by
`context.WithTimeout(context.Background(), timeout)`: how long after its creation
the context is cancelled, when its cancel function is called `called`
nanoseconds after the creation (`none`: never called). With a timeout that is
not positive the context is already cancelled when it is created; otherwise the
timer or the call cancels it, whichever comes first. -/
def cancelledAfter (timeout : Duration) (called : Option Nat) : Duration :=
  if timeout ≤ 0 then 0
  else
    match called with
    | none => timeout
    | some e => min (e : Int) timeout

/-- How long after its creation the context of a pass is cancelled, for a pass
that returns `elapsed` nanoseconds after creating it: the deferred cancel is
called at the return. `none` when the pass creates no context. -/
def ReconcileOutcome.contextCancelledAfter (out : ReconcileOutcome)
    (elapsed : Nat) : Option Duration :=
  match contextOf out.effects with
  | none => none
  | some (d, true) => some (cancelledAfter d (some elapsed))
  | some (d, false) => some (cancelledAfter d none)

/-! ## Package `compute`: the Firewall connector -/

/-- Constant `errNotFirewall`. -/
def errNotFirewall : String := "crossplane resource is not a Firewall custom resource"

/-- A `firewallConnector` wraps the kube client. -/
structure firewallConnector where
  kube : KubeClient
deriving DecidableEq, Repr

/-- Method `firewallConnector.Observe`. -/
def firewallConnector.Observe (_c : firewallConnector) (mg : Option Dna) :
    CallOutcome CrossplaneObservation :=
  match assertFirewall mg with
  | none => { mg := mg, value := {}, err := some ⟨errNotFirewall⟩, stdout := [] }
  | some dr =>
    { mg := mg
      value := { ResourceExists := true, ResourceUpToDate := true }
      err := none
      stdout := [⟨"Observing: %+v", dr⟩] }

/-- Method `firewallConnector.Create`. -/
def firewallConnector.Create (_c : firewallConnector) (mg : Option Dna) :
    CallOutcome CrossplaneCreation :=
  match assertFirewall mg with
  | none => { mg := mg, value := {}, err := some ⟨errNotFirewall⟩, stdout := [] }
  | some dr => { mg := mg, value := {}, err := none, stdout := [⟨"Creating: %+v", dr⟩] }

/-- Method `firewallConnector.Update`. -/
def firewallConnector.Update (_c : firewallConnector) (mg : Option Dna) :
    CallOutcome CrossplaneUpdate :=
  match assertFirewall mg with
  | none => { mg := mg, value := {}, err := some ⟨errNotFirewall⟩, stdout := [] }
  | some dr => { mg := mg, value := {}, err := none, stdout := [⟨"Updating: %+v", dr⟩] }

/-- Method `firewallConnector.Delete`. -/
def firewallConnector.Delete (_c : firewallConnector) (mg : Option Dna) :
    CallOutcome Unit :=
  match assertFirewall mg with
  | none => { mg := mg, value := (), err := some ⟨errNotFirewall⟩, stdout := [] }
  | some dr => { mg := mg, value := (), err := none, stdout := [⟨"Deleting: %+v", dr⟩] }

/-- The connector seen through interface `Client`. -/
def firewallConnector.toClient (c : firewallConnector) : Client :=
  { Observe := c.Observe, Create := c.Create, Update := c.Update, Delete := c.Delete }

/-- Whether the dynamic type of a resource is `*v1alpha1.Firewall`. -/
def IsFirewall (mg : Option Dna) : Prop := ∃ p, mg = some (Dna.firewall p)

instance (mg : Option Dna) : Decidable (IsFirewall mg) :=
  match mg with
  | some (.firewall p) => isTrue ⟨p, rfl⟩
  | some (.other _ _) => isFalse (by rintro ⟨p, h⟩; cases h)
  | none => isFalse (by rintro ⟨p, h⟩; cases h)

/-! ## Sample inputs -/

/-- A sample Firewall kind. -/
def sampleKind : GroupVersionKind :=
  { Group := "compute.dna.example.org", Version := "v1alpha1", Kind := "Firewall" }

/-- The kind of the list type that goes with `sampleKind`. -/
def sampleListKind : GroupVersionKind :=
  { Group := "compute.dna.example.org", Version := "v1alpha1", Kind := "FirewallList" }

/-- The zero value of `Firewall`. -/
def zeroFirewall : Firewall :=
  { TypeMeta := ⟨"", ""⟩
    ObjectMeta := ⟨"", "", []⟩
    Spec := ⟨⟨"", none⟩⟩
    Status := ⟨⟨[]⟩⟩ }

/-- A scheme in which `Firewall` and `FirewallList` are registered under the two
sample kinds: `New` answers with a pointer to a zero value for these, and with an
error for every other kind. -/
def sampleScheme : ObjectCreater :=
  { New := fun k =>
      if k = sampleKind then (some (.dna (.firewall (some zeroFirewall))), none)
      else if k = sampleListKind then
        (some (.firewallList (some ⟨⟨"", ""⟩, ⟨"", ""⟩, []⟩)), none)
      else (none, some ⟨"no kind is registered for the type"⟩) }

/-- A manager with the sample scheme. -/
def sampleManager : Manager :=
  { GetScheme := sampleScheme, GetClient := ⟨"kube"⟩ }

/-- A sample request. -/
def sampleRequest : Request := { Namespace := "default", Name := "fw" }

/-- A Reconciler with the default configuration of `NewReconciler`. -/
def sampleReconciler : Reconciler :=
  { client := ⟨"kube"⟩
    newDna := fun _ => .ok (.firewall (some zeroFirewall))
    pollInterval := defaultpollInterval
    creationGracePeriod := defaultGracePeriod
    timeout := reconcileTimeout
    log := some Logger.nop
    record := some Recorder.nop }

/-! ## The options of the package, as data -/

/-- The fields of a Reconciler that an option of the package assigns. -/
inductive Field where
  | pollInterval
  | creationGracePeriod
  | timeout
  | log
  | record
deriving DecidableEq, Repr

/-- A call of one of the five option constructors of the package, with its
argument. -/
inductive OptionCall where
  | withTimeout (duration : Duration)
  | withPollInterval (after : Duration)
  | withCreationGracePeriod (d : Duration)
  | withLogger (l : Option Logger)
  | withRecorder (er : Option Recorder)
deriving DecidableEq, Repr

/-- The `ReconcilerOption` that a call of an option constructor returns. -/
def OptionCall.toOption : OptionCall → ReconcilerOption
  | .withTimeout d => WithTimeout d
  | .withPollInterval d => WithPollInterval d
  | .withCreationGracePeriod d => WithCreationGracePeriod d
  | .withLogger l => WithLogger l
  | .withRecorder er => WithRecorder er

/-- The field that the option assigns (the one its constructor is named for). -/
def OptionCall.target : OptionCall → Field
  | .withTimeout _ => .timeout
  | .withPollInterval _ => .pollInterval
  | .withCreationGracePeriod _ => .creationGracePeriod
  | .withLogger _ => .log
  | .withRecorder _ => .record

/-- The duration an option gives for field `f`, when it targets `f`. -/
def OptionCall.valueFor (f : Field) : OptionCall → Option Duration
  | .withTimeout d => if f = .timeout then some d else none
  | .withPollInterval d => if f = .pollInterval then some d else none
  | .withCreationGracePeriod d => if f = .creationGracePeriod then some d else none
  | .withLogger _ => none
  | .withRecorder _ => none

/-- Stated from the claim: the value given by the last option in the list that
targets field `f`, or `default` when no option targets it. -/
def lastValueFor (f : Field) (default : Duration) (os : List OptionCall) : Duration :=
  ((os.filterMap (OptionCall.valueFor f)).getLast?).getD default

/-! ## Theorems -/

/-- C1 (as amended): for every manager whose scheme knows the kind and creates
for it an object that implements `resource.Dna`, `NewReconciler` called with no
options returns a Reconciler whose `pollInterval` is 1 minute, whose
`creationGracePeriod` is 30 seconds and whose `timeout` is 1 minute. -/
theorem C1_newReconciler_defaults (m : Manager) (of : DnaKind) (d : Dna)
    (hknown : m.GetScheme.New of = (some (.dna d), none)) :
    ∃ r, NewReconciler m of [] = .ok r ∧
      r.pollInterval = 60 * Second ∧
      r.creationGracePeriod = 30 * Second ∧
      r.timeout = 60 * Second := by
  unfold NewReconciler
  simp only [MustCreateObject, hknown, assertDna, List.foldl_nil]
  exact ⟨_, rfl, by simp [defaultpollInterval, Minute], by simp [defaultGracePeriod],
    by simp [reconcileTimeout, Minute]⟩

/-- Witness of C1 at the sample manager and the sample Firewall kind. -/
theorem C1_newReconciler_defaults_witness :
    sampleManager.GetScheme.New sampleKind
        = (some (.dna (.firewall (some zeroFirewall))), none) ∧
      ∃ r, NewReconciler sampleManager sampleKind [] = .ok r ∧
        r.pollInterval = 60 * Second ∧
        r.creationGracePeriod = 30 * Second ∧
        r.timeout = 60 * Second :=
  ⟨by decide,
    C1_newReconciler_defaults sampleManager sampleKind (.firewall (some zeroFirewall))
      (by decide)⟩

/-- C1 (counterexample to the claim as stated): the sample scheme knows the kind
of `FirewallList` (its `New` returns an object and no error), yet `NewReconciler`
with no options panics on the type assertion to `resource.Dna` and returns no
Reconciler. -/
theorem C1_known_kind_not_dna_panics :
    (sampleManager.GetScheme.New sampleListKind).2 = none ∧
      (∃ obj, (sampleManager.GetScheme.New sampleListKind).1 = some obj) ∧
      (∀ r, NewReconciler sampleManager sampleListKind [] ≠ .ok r) := by
  refine ⟨by decide, ⟨.firewallList (some ⟨⟨"", ""⟩, ⟨"", ""⟩, []⟩), by decide⟩, ?_⟩
  intro r h
  have hp : NewReconciler sampleManager sampleListKind []
      = .error (.typeAssertion (some "*v1alpha1.FirewallList")) := by
    simp [NewReconciler, MustCreateObject, sampleManager, sampleScheme, sampleListKind,
      sampleKind, assertDna, RuntimeObject.typeName]
  rw [hp] at h
  cases h

/-- C2: for every duration `d` and every Reconciler `r`, `WithPollInterval d`
sets `pollInterval` to `d`, `WithCreationGracePeriod d` sets
`creationGracePeriod` to `d`, `WithTimeout d` sets `timeout` to `d`, and each of
these options, as well as `WithLogger l` and `WithRecorder er` (for every logger
and recorder, nil included), leaves every other field of `r` unchanged. -/
theorem C2_options_set_one_field (d : Duration) (l : Option Logger)
    (er : Option Recorder)
    (r : Reconciler) :
    ((WithPollInterval d r).pollInterval = d ∧
        (WithPollInterval d r).client = r.client ∧
        (WithPollInterval d r).newDna = r.newDna ∧
        (WithPollInterval d r).timeout = r.timeout ∧
        (WithPollInterval d r).creationGracePeriod = r.creationGracePeriod ∧
        (WithPollInterval d r).log = r.log ∧
        (WithPollInterval d r).record = r.record) ∧
      ((WithCreationGracePeriod d r).creationGracePeriod = d ∧
        (WithCreationGracePeriod d r).client = r.client ∧
        (WithCreationGracePeriod d r).newDna = r.newDna ∧
        (WithCreationGracePeriod d r).pollInterval = r.pollInterval ∧
        (WithCreationGracePeriod d r).timeout = r.timeout ∧
        (WithCreationGracePeriod d r).log = r.log ∧
        (WithCreationGracePeriod d r).record = r.record) ∧
      ((WithTimeout d r).timeout = d ∧
        (WithTimeout d r).client = r.client ∧
        (WithTimeout d r).newDna = r.newDna ∧
        (WithTimeout d r).pollInterval = r.pollInterval ∧
        (WithTimeout d r).creationGracePeriod = r.creationGracePeriod ∧
        (WithTimeout d r).log = r.log ∧
        (WithTimeout d r).record = r.record) ∧
      ((WithLogger l r).log = l ∧
        (WithLogger l r).client = r.client ∧
        (WithLogger l r).newDna = r.newDna ∧
        (WithLogger l r).pollInterval = r.pollInterval ∧
        (WithLogger l r).timeout = r.timeout ∧
        (WithLogger l r).creationGracePeriod = r.creationGracePeriod ∧
        (WithLogger l r).record = r.record) ∧
      ((WithRecorder er r).record = er ∧
        (WithRecorder er r).client = r.client ∧
        (WithRecorder er r).newDna = r.newDna ∧
        (WithRecorder er r).pollInterval = r.pollInterval ∧
        (WithRecorder er r).timeout = r.timeout ∧
        (WithRecorder er r).creationGracePeriod = r.creationGracePeriod ∧
        (WithRecorder er r).log = r.log) :=
  ⟨⟨rfl, rfl, rfl, rfl, rfl, rfl, rfl⟩, ⟨rfl, rfl, rfl, rfl, rfl, rfl, rfl⟩,
    ⟨rfl, rfl, rfl, rfl, rfl, rfl, rfl⟩, ⟨rfl, rfl, rfl, rfl, rfl, rfl, rfl⟩,
    ⟨rfl, rfl, rfl, rfl, rfl, rfl, rfl⟩⟩

/-- Int64 addition is exact when the mathematical sum is an int64. -/
theorem Duration.add_eq_of_fits (a b : Int) (hlo : -(2 ^ 63 : Int) ≤ a + b)
    (hhi : a + b ≤ (2 ^ 63 : Int) - 1) : Duration.add a b = a + b := by
  show (a + b + 2 ^ 63) % 2 ^ 64 - 2 ^ 63 = a + b
  rw [Int.emod_eq_of_lt (by omega) (by omega)]
  omega

/-- The timeout of a Reconciler built with no options is `reconcileTimeout`. -/
theorem NewReconciler_nil_timeout (m : Manager) (of : DnaKind) (r : Reconciler)
    (h : NewReconciler m of [] = .ok r) : r.timeout = reconcileTimeout := by
  unfold NewReconciler at h
  simp only [List.foldl_nil] at h
  split at h
  · cases h
  · cases h
    rfl

/-- The logger of a Reconciler built with no options is the no-op logger. -/
theorem NewReconciler_nil_log (m : Manager) (of : DnaKind) (r : Reconciler)
    (h : NewReconciler m of [] = .ok r) : r.log = some Logger.nop := by
  unfold NewReconciler at h
  simp only [List.foldl_nil] at h
  split at h
  · cases h
  · cases h
    rfl

/-- A pass of a Reconciler with a logger: what it returns and what it does. -/
theorem Reconciler.Reconcile_of_log (r : Reconciler) (req : Request) (l : Logger)
    (hl : r.log = some l) :
    r.Reconcile req = .ok
      { result := { Requeue := false, RequeueAfter := 0 }
        err := none
        effects :=
          [.logDebug (l.WithValues "request" (.request req)) "Reconciling",
            .contextWithTimeout (Duration.add r.timeout reconcileGracePeriod),
            .cancel (Duration.add r.timeout reconcileGracePeriod)] } := by
  unfold Reconciler.Reconcile
  rw [hl]

/-- The context of a pass of a Reconciler with a logger, for a timeout whose sum
with the grace period is an int64: the timeout it gets, that the pass cancels
it, and when it is cancelled for a pass that returns `elapsed` after creating
it. -/
theorem Reconciler.Reconcile_context (r : Reconciler) (req : Request) (elapsed : Nat)
    (hlog : r.log ≠ none) (hlo : minInt64 ≤ r.timeout)
    (hhi : r.timeout + 30 * Second ≤ maxInt64) :
    ∃ out, r.Reconcile req = .ok out ∧
      contextOf out.effects = some (r.timeout + 30 * Second, true) ∧
      out.contextCancelledAfter elapsed
        = some (if r.timeout + 30 * Second ≤ 0 then 0
            else min (elapsed : Int) (r.timeout + 30 * Second)) := by
  obtain ⟨l, hl⟩ := Option.ne_none_iff_exists'.mp hlog
  have hlo2 : -(2 ^ 63 : Int) ≤ r.timeout := hlo
  have hhi2 : r.timeout + (30 : Int) * 1000000000 ≤ (2 ^ 63 : Int) - 1 := hhi
  have hfit : Duration.add r.timeout reconcileGracePeriod = r.timeout + 30 * Second :=
    Duration.add_eq_of_fits r.timeout ((30 : Int) * 1000000000) (by omega) hhi2
  refine ⟨_, Reconciler.Reconcile_of_log r req l hl, ?_, ?_⟩
  · simp [contextOf, hfit]
  · simp [ReconcileOutcome.contextCancelledAfter, contextOf, cancelledAfter, hfit]

/-- C5 (as amended): for every Reconciler whose logger is not nil and whose
timeout `t` is an int64 with `t + 30 s` not above the largest int64, a reconcile
pass creates its context with a timeout of exactly `t + 30 s` and calls the
cancel function of the context when it returns; so the context is cancelled
when the pass returns or `t + 30 s` after its creation, whichever comes first
(at once when `t + 30 s` is not positive). The timeout is 90 seconds for a
Reconciler built by `NewReconciler` with no options, and `d + 30 s` after
`WithTimeout d`, for `d` in the same range. Here `elapsed` is the time in
nanoseconds from the creation of the context to the return of the pass. -/
theorem C5_context_cancelled_at_return_or_timeout (r : Reconciler) (req : Request)
    (d : Duration) (elapsed : Nat) (hlog : r.log ≠ none)
    (hr : minInt64 ≤ r.timeout ∧ r.timeout + 30 * Second ≤ maxInt64)
    (hd : minInt64 ≤ d ∧ d + 30 * Second ≤ maxInt64) :
    (∃ out, r.Reconcile req = .ok out ∧
        contextOf out.effects = some (r.timeout + 30 * Second, true) ∧
        out.contextCancelledAfter elapsed
          = some (if r.timeout + 30 * Second ≤ 0 then 0
              else min (elapsed : Int) (r.timeout + 30 * Second))) ∧
      (∀ m of r0, NewReconciler m of [] = .ok r0 →
        ∃ out, r0.Reconcile req = .ok out ∧
          contextOf out.effects = some (90 * Second, true) ∧
          out.contextCancelledAfter elapsed = some (min (elapsed : Int) (90 * Second))) ∧
      (∃ out, (WithTimeout d r).Reconcile req = .ok out ∧
        contextOf out.effects = some (d + 30 * Second, true) ∧
        out.contextCancelledAfter elapsed
          = some (if d + 30 * Second ≤ 0 then 0
              else min (elapsed : Int) (d + 30 * Second))) := by
  refine ⟨Reconciler.Reconcile_context r req elapsed hlog hr.1 hr.2, ?_,
    Reconciler.Reconcile_context (WithTimeout d r) req elapsed hlog hd.1 hd.2⟩
  intro m of r0 h0
  have hl0 : r0.log ≠ none := by
    rw [NewReconciler_nil_log m of r0 h0]
    exact Option.some_ne_none _
  have ht0 : r0.timeout = reconcileTimeout := NewReconciler_nil_timeout m of r0 h0
  obtain ⟨out, ho, hc, ha⟩ := Reconciler.Reconcile_context r0 req elapsed hl0
    (by rw [ht0]; decide) (by rw [ht0]; decide)
  have h90 : r0.timeout + 30 * Second = 90 * Second := by
    rw [ht0]; decide
  have hpos : ¬ ((90 : Int) * Second ≤ 0) := by decide
  rw [h90] at hc ha
  rw [if_neg hpos] at ha
  exact ⟨out, ho, hc, ha⟩

/-- Witness of C5 at the default Reconciler, `d` = 5 seconds and a pass that
returns 1 millisecond after creating its context: the context has a timeout of
90 seconds and is cancelled after 1 millisecond. -/
theorem C5_context_cancelled_at_return_or_timeout_witness :
    sampleReconciler.log ≠ none ∧
      (minInt64 ≤ sampleReconciler.timeout ∧
        sampleReconciler.timeout + 30 * Second ≤ maxInt64) ∧
      (minInt64 ≤ 5 * Second ∧ 5 * Second + 30 * Second ≤ maxInt64) ∧
      (∃ out, sampleReconciler.Reconcile sampleRequest = .ok out ∧
        contextOf out.effects = some (sampleReconciler.timeout + 30 * Second, true) ∧
        out.contextCancelledAfter 1000000
          = some (if sampleReconciler.timeout + 30 * Second ≤ 0 then 0
              else min 1000000 (sampleReconciler.timeout + 30 * Second))) ∧
      (∃ out, (WithTimeout (5 * Second) sampleReconciler).Reconcile sampleRequest = .ok out ∧
        contextOf out.effects = some (5 * Second + 30 * Second, true) ∧
        out.contextCancelledAfter 1000000
          = some (if 5 * Second + 30 * Second ≤ 0 then 0
              else min 1000000 (5 * Second + 30 * Second))) :=
  have h := C5_context_cancelled_at_return_or_timeout sampleReconciler sampleRequest
    (5 * Second) 1000000 (by decide) (by decide) (by decide)
  ⟨by decide, by decide, by decide, h.1, h.2.2⟩

/-- C5 (counterexample to the claim as stated), in three parts. The default
Reconciler has timeout plus grace period 90 seconds, yet the context of a pass
that returns 1 millisecond after creating it is cancelled after 1 millisecond,
by the deferred cancel. After `WithTimeout d` with `d` the largest int64 the sum
wraps to a negative timeout, and the context is cancelled at its creation, not
`d + 30 s` later, however long the pass lasts. With a nil logger the pass panics
and creates no context. -/
theorem C5_context_not_cancelled_after_timeout_plus_grace :
    (∃ out, sampleReconciler.Reconcile sampleRequest = .ok out ∧
        sampleReconciler.timeout + 30 * Second = 90 * Second ∧
        out.contextCancelledAfter 1000000 = some 1000000 ∧
        out.contextCancelledAfter 1000000
          ≠ some (sampleReconciler.timeout + 30 * Second)) ∧
      (∃ out, (WithTimeout maxInt64 sampleReconciler).Reconcile sampleRequest = .ok out ∧
        contextOf out.effects = some (minInt64 + 30 * Second - 1, true) ∧
        minInt64 + 30 * Second - 1 < 0 ∧
        out.contextCancelledAfter (2 ^ 63 + 30000000000) = some 0 ∧
        out.contextCancelledAfter (2 ^ 63 + 30000000000)
          ≠ some (maxInt64 + 30 * Second)) ∧
      (WithLogger none sampleReconciler).Reconcile sampleRequest
        = .error .nilDereference := by
  refine ⟨⟨_, rfl, by decide, by decide, by decide⟩,
    ⟨_, rfl, by decide, by decide, by decide, by decide⟩, rfl⟩

/-- The resource is a Firewall exactly when the comma-ok assertion succeeds. -/
theorem assertFirewall_eq_none_iff (mg : Option Dna) :
    assertFirewall mg = none ↔ ¬ IsFirewall mg := by
  rcases mg with _ | (p | ⟨n, om⟩)
  · simp [assertFirewall, IsFirewall]
  · simp [assertFirewall, IsFirewall]
  · simp [assertFirewall, IsFirewall]

/-- No operation of the connector changes the resource it is given. -/
theorem firewallConnector.Delete_mg (c : firewallConnector) (mg : Option Dna) :
    (c.Delete mg).mg = mg := by
  unfold firewallConnector.Delete
  split <;> rfl

/-- Deleting any number of times leaves the resource as it was. -/
theorem firewallConnector.Delete_iterate_mg (c : firewallConnector) (mg : Option Dna)
    (n : Nat) : (fun x => (c.Delete x).mg)^[n] mg = mg := by
  induction n with
  | zero => rfl
  | succ k ih => rw [Function.iterate_succ_apply, firewallConnector.Delete_mg, ih]

/-- C6: for every resource passed to the Firewall connector, each of `Observe`,
`Create`, `Update` and `Delete` returns an error exactly when the resource is not
a Firewall; that error has the message "crossplane resource is not a Firewall
custom resource" and comes with the zero-value result; on every Firewall each
operation returns no error, and `Delete` still returns no error after any number
of earlier `Delete` calls on the resource. -/
theorem C6_connector_error_iff_not_firewall (c : firewallConnector) (mg : Option Dna) :
    (((c.Observe mg).err ≠ none ↔ ¬ IsFirewall mg) ∧
        ((c.Create mg).err ≠ none ↔ ¬ IsFirewall mg) ∧
        ((c.Update mg).err ≠ none ↔ ¬ IsFirewall mg) ∧
        ((c.Delete mg).err ≠ none ↔ ¬ IsFirewall mg)) ∧
      (¬ IsFirewall mg →
        (c.Observe mg).err = some ⟨errNotFirewall⟩ ∧
        (c.Observe mg).value = ⟨false, false, false, ""⟩ ∧
        (c.Create mg).err = some ⟨errNotFirewall⟩ ∧
        (c.Create mg).value = ⟨false⟩ ∧
        (c.Update mg).err = some ⟨errNotFirewall⟩ ∧
        (c.Update mg).value = ⟨⟩ ∧
        (c.Delete mg).err = some ⟨errNotFirewall⟩) ∧
      (IsFirewall mg →
        (c.Observe mg).err = none ∧ (c.Create mg).err = none ∧
        (c.Update mg).err = none ∧ (c.Delete mg).err = none ∧
        ∀ n : Nat, (c.Delete ((fun x => (c.Delete x).mg)^[n] mg)).err = none) ∧
      errNotFirewall = "crossplane resource is not a Firewall custom resource" := by
  have key := assertFirewall_eq_none_iff mg
  rcases h : assertFirewall mg with _ | dr
  · have hn : ¬ IsFirewall mg := key.mp h
    refine ⟨?_, ?_, ?_, rfl⟩
    · simp [firewallConnector.Observe, firewallConnector.Create, firewallConnector.Update,
        firewallConnector.Delete, h, hn]
    · intro _
      simp [firewallConnector.Observe, firewallConnector.Create, firewallConnector.Update,
        firewallConnector.Delete, h]
    · intro hf
      exact absurd hf hn
  · have hf : IsFirewall mg := by
      by_contra hc
      rw [key.mpr hc] at h
      cases h
    refine ⟨?_, ?_, ?_, rfl⟩
    · simp [firewallConnector.Observe, firewallConnector.Create, firewallConnector.Update,
        firewallConnector.Delete, h, hf]
    · intro hn
      exact absurd hf hn
    · intro _
      refine ⟨?_, ?_, ?_, ?_, ?_⟩
      · simp [firewallConnector.Observe, h]
      · simp [firewallConnector.Create, h]
      · simp [firewallConnector.Update, h]
      · simp [firewallConnector.Delete, h]
      · intro n
        rw [firewallConnector.Delete_iterate_mg]
        simp [firewallConnector.Delete, h]

/-- C7: `MustCreateObject kind oc` panics exactly when `oc.New kind` returns an
error, then with that error, and otherwise returns exactly the object that
`oc.New kind` returned; so `NewReconciler`, whatever its options, panics with
that error and returns no Reconciler when the scheme of the manager returns an
error for the kind. -/
theorem C7_mustCreateObject_panics_iff_new_errors (kind : GroupVersionKind)
    (oc : ObjectCreater) :
    ((∃ p, MustCreateObject kind oc = .error p) ↔ (oc.New kind).2 ≠ none) ∧
      (∀ e, (oc.New kind).2 = some e → MustCreateObject kind oc = .error (.err e)) ∧
      ((oc.New kind).2 = none → MustCreateObject kind oc = .ok (oc.New kind).1) ∧
      (∀ (c : KubeClient) (o : List ReconcilerOption) (e : Error),
        (oc.New kind).2 = some e →
          NewReconciler ⟨oc, c⟩ kind o = .error (.err e) ∧
          ∀ r, NewReconciler ⟨oc, c⟩ kind o ≠ .ok r) := by
  rcases h : oc.New kind with ⟨obj, _ | err⟩
  · refine ⟨?_, ?_, ?_, ?_⟩
    · simp [MustCreateObject, h]
    · intro e he
      cases he
    · intro _
      simp [MustCreateObject, h]
    · intro c o e he
      cases he
  · refine ⟨?_, ?_, ?_, ?_⟩
    · simp [MustCreateObject, h]
    · intro e he
      cases he
      simp [MustCreateObject, h]
    · intro he
      cases he
    · intro c o e he
      cases he
      have hp : NewReconciler ⟨oc, c⟩ kind o = .error (.err err) := by
        simp [NewReconciler, MustCreateObject, h]
      refine ⟨hp, ?_⟩
      intro r hr
      rw [hp] at hr
      cases hr

/-- Appending to the same string on the left is injective. -/
theorem String.append_left_cancel_iff (p a b : String) : p ++ a = p ++ b ↔ a = b := by
  constructor
  · intro h
    have hd := congrArg String.data h
    simp only [String.data_append] at hd
    exact String.ext (List.append_cancel_left hd)
  · rintro rfl
    rfl

/-- C8: for every string `kind`, `ControllerName kind` is "managed/" followed by
`kind` converted to lower case; hence two kinds get the same controller name if
and only if they have the same lower-case form. -/
theorem C8_controllerName_eq (ToLower : String → String) (kind : String) :
    ControllerName ToLower kind = "managed/" ++ ToLower kind ∧
      ∀ a b : String,
        ControllerName ToLower a = ControllerName ToLower b ↔ ToLower a = ToLower b :=
  ⟨rfl, fun a b => String.append_left_cancel_iff "managed/" (ToLower a) (ToLower b)⟩

/-- C9: for every Firewall resource, `Observe` of the Firewall connector leaves
the resource unchanged and returns, with no error, an observation with
`ResourceExists = true`, `ResourceUpToDate = true`,
`ResourceLateInitialized = false` and an empty `Diff`; observing the resource
once more gives the same observation, error and resource. -/
theorem C9_observe_firewall_reports_up_to_date (c : firewallConnector)
    (p : Option Firewall) :
    (c.Observe (some (.firewall p))).mg = some (.firewall p) ∧
      (c.Observe (some (.firewall p))).err = none ∧
      (c.Observe (some (.firewall p))).value.ResourceExists = true ∧
      (c.Observe (some (.firewall p))).value.ResourceUpToDate = true ∧
      (c.Observe (some (.firewall p))).value.ResourceLateInitialized = false ∧
      (c.Observe (some (.firewall p))).value.Diff = "" ∧
      (c.Observe (c.Observe (some (.firewall p))).mg).value
        = (c.Observe (some (.firewall p))).value ∧
      (c.Observe (c.Observe (some (.firewall p))).mg).err
        = (c.Observe (some (.firewall p))).err ∧
      (c.Observe (c.Observe (some (.firewall p))).mg).mg
        = (c.Observe (some (.firewall p))).mg :=
  ⟨rfl, rfl, rfl, rfl, rfl, rfl, rfl, rfl, rfl⟩

/-- C10 (as amended): for every Reconciler configuration whose logger is not
nil and every request, `Reconcile` returns the empty result (`Requeue = false`,
`RequeueAfter = 0`) together with a nil error, and none of its effects is a call
of `Observe`, `Create`, `Update` or `Delete`. -/
theorem C10_reconcile_returns_empty_result (r : Reconciler) (req : Request)
    (hlog : r.log ≠ none) :
    ∃ out, r.Reconcile req = .ok out ∧
      out.result.Requeue = false ∧
      out.result.RequeueAfter = 0 ∧
      out.err = none ∧
      ∀ e ∈ out.effects, e.isClientCall = false := by
  obtain ⟨l, hl⟩ := Option.ne_none_iff_exists'.mp hlog
  refine ⟨_, Reconciler.Reconcile_of_log r req l hl, rfl, rfl, rfl, ?_⟩
  intro e he
  simp only [List.mem_cons, List.mem_singleton, List.mem_nil_iff, or_false] at he
  rcases he with h | h | h <;> subst h <;> rfl

/-- Witness of C10 at the Reconciler with the default configuration. -/
theorem C10_reconcile_returns_empty_result_witness :
    sampleReconciler.log ≠ none ∧
      ∃ out, sampleReconciler.Reconcile sampleRequest = .ok out ∧
        out.result.Requeue = false ∧
        out.result.RequeueAfter = 0 ∧
        out.err = none ∧
        ∀ e ∈ out.effects, e.isClientCall = false :=
  ⟨by decide, C10_reconcile_returns_empty_result sampleReconciler sampleRequest (by decide)⟩

/-- C10 (counterexample to the claim as stated): `NewReconciler` with the option
`WithLogger` of a nil logger returns a Reconciler, and `Reconcile` of this
Reconciler panics on the nil logger: it returns no result and no error. -/
theorem C10_nil_logger_reconcile_panics :
    ∃ r, NewReconciler sampleManager sampleKind [WithLogger none] = .ok r ∧
      r.log = none ∧
      r.Reconcile sampleRequest = .error .nilDereference ∧
      ∀ out, r.Reconcile sampleRequest ≠ .ok out := by
  refine ⟨_, rfl, rfl, rfl, ?_⟩
  intro out h
  cases h

/-- Running the options in order, from a Reconciler `r0`. -/
theorem foldl_toOption (os : List OptionCall) (r0 : Reconciler) :
    (os.map OptionCall.toOption).foldl (fun r ro => ro r) r0
      = os.foldl (fun r o => o.toOption r) r0 := by
  rw [List.foldl_map]

/-- The last element of a non-empty list does not depend on the fallback. -/
theorem getLast?_cons_getD (d x : Duration) (l : List Duration) :
    ((d :: l).getLast?).getD x = (l.getLast?).getD d := by
  cases l with
  | nil => rfl
  | cons b t =>
    rw [List.getLast?_cons_cons]
    cases h : (b :: t).getLast? with
    | none => simp at h
    | some v => rfl

/-- A field read by `get` whose value after one option is the value the option
gives for `f`, or else the value before, ends at the last value given for `f`. -/
theorem foldl_field_eq_lastValueFor (f : Field) (get : Reconciler → Duration)
    (hstep : ∀ (o : OptionCall) (r : Reconciler),
      get (o.toOption r) = (o.valueFor f).getD (get r))
    (os : List OptionCall) (r0 : Reconciler) :
    get (os.foldl (fun r o => o.toOption r) r0) = lastValueFor f (get r0) os := by
  induction os generalizing r0 with
  | nil => rfl
  | cons o rest ih =>
    rw [List.foldl_cons, ih (o.toOption r0), hstep o r0]
    unfold lastValueFor
    cases hv : o.valueFor f with
    | none => simp [List.filterMap_cons, hv]
    | some d =>
      simp only [List.filterMap_cons, hv, Option.getD_some]
      exact (getLast?_cons_getD d (get r0) _).symm

/-- What `NewReconciler` returns, when it returns: the options run in order from
a Reconciler that holds the three default durations. -/
theorem NewReconciler_ok_eq_foldl (m : Manager) (of : DnaKind)
    (o : List ReconcilerOption) (r : Reconciler) (h : NewReconciler m of o = .ok r) :
    ∃ r0 : Reconciler, r0.pollInterval = defaultpollInterval ∧
      r0.creationGracePeriod = defaultGracePeriod ∧ r0.timeout = reconcileTimeout ∧
      r = o.foldl (fun r ro => ro r) r0 := by
  unfold NewReconciler at h
  simp only at h
  split at h
  · cases h
  · cases h
    exact ⟨_, rfl, rfl, rfl, rfl⟩

/-- Two option lists that act alike on every Reconciler give the same outcome
of `NewReconciler`. -/
theorem NewReconciler_congr (m : Manager) (of : DnaKind) (o1 o2 : List ReconcilerOption)
    (h : ∀ r0 : Reconciler, o1.foldl (fun r ro => ro r) r0 = o2.foldl (fun r ro => ro r) r0) :
    NewReconciler m of o1 = NewReconciler m of o2 := by
  unfold NewReconciler
  simp only [h]

/-- Options for different fields commute. -/
theorem OptionCall.toOption_comm (a b : OptionCall) (hab : a.target ≠ b.target)
    (r : Reconciler) : b.toOption (a.toOption r) = a.toOption (b.toOption r) := by
  cases a <;> cases b <;> first | rfl | exact absurd rfl hab

/-- Of two options for the same field, the later one decides. -/
theorem OptionCall.toOption_overwrite (a b : OptionCall) (hab : a.target = b.target)
    (r : Reconciler) : b.toOption (a.toOption r) = b.toOption r := by
  cases a <;> cases b <;> first | rfl | cases hab

/-- C11: `NewReconciler` runs its options in argument order on top of the
defaults. For every list of options of the package: whenever it returns a
Reconciler, each of `pollInterval`, `creationGracePeriod` and `timeout` of the
result is the value given by the last option in the list that targets the
field, or the default (1 minute, 30 seconds, 1 minute) when none does; it does
return one when the scheme creates a `resource.Dna` for the kind; swapping two
adjacent options for different fields does not change the outcome; and of two
adjacent options for the same field the earlier one can be dropped. -/
theorem C11_newReconciler_last_option_wins (m : Manager) (of : DnaKind)
    (os : List OptionCall) :
    (∀ r, NewReconciler m of (os.map OptionCall.toOption) = .ok r →
        r.pollInterval = lastValueFor .pollInterval (60 * Second) os ∧
        r.creationGracePeriod = lastValueFor .creationGracePeriod (30 * Second) os ∧
        r.timeout = lastValueFor .timeout (60 * Second) os) ∧
      (∀ d, m.GetScheme.New of = (some (.dna d), none) →
        ∃ r, NewReconciler m of (os.map OptionCall.toOption) = .ok r) ∧
      (∀ (a b : OptionCall) (pre post : List OptionCall), a.target ≠ b.target →
        NewReconciler m of ((pre ++ a :: b :: post).map OptionCall.toOption)
          = NewReconciler m of ((pre ++ b :: a :: post).map OptionCall.toOption)) ∧
      (∀ (a b : OptionCall) (pre post : List OptionCall), a.target = b.target →
        NewReconciler m of ((pre ++ a :: b :: post).map OptionCall.toOption)
          = NewReconciler m of ((pre ++ b :: post).map OptionCall.toOption)) := by
  refine ⟨?_, ?_, ?_, ?_⟩
  · intro r h
    obtain ⟨r0, hp, hg, ht, hr⟩ := NewReconciler_ok_eq_foldl m of _ r h
    rw [foldl_toOption] at hr
    subst hr
    have e1 : (60 * Second : Duration) = r0.pollInterval := by
      rw [hp]; decide
    have e2 : (30 * Second : Duration) = r0.creationGracePeriod := by
      rw [hg]; decide
    have e3 : (60 * Second : Duration) = r0.timeout := by
      rw [ht]; decide
    refine ⟨?_, ?_, ?_⟩
    · rw [e1]
      exact foldl_field_eq_lastValueFor .pollInterval (fun r => r.pollInterval)
        (by intro o r; cases o <;> rfl) os r0
    · rw [e2]
      exact foldl_field_eq_lastValueFor .creationGracePeriod
        (fun r => r.creationGracePeriod) (by intro o r; cases o <;> rfl) os r0
    · rw [e3]
      exact foldl_field_eq_lastValueFor .timeout (fun r => r.timeout)
        (by intro o r; cases o <;> rfl) os r0
  · intro d hknown
    unfold NewReconciler
    simp only [MustCreateObject, hknown, assertDna]
    exact ⟨_, rfl⟩
  · intro a b pre post hab
    apply NewReconciler_congr
    intro r0
    simp only [foldl_toOption, List.foldl_append, List.foldl_cons]
    rw [OptionCall.toOption_comm a b hab]
  · intro a b pre post hab
    apply NewReconciler_congr
    intro r0
    simp only [foldl_toOption, List.foldl_append, List.foldl_cons]
    rw [OptionCall.toOption_overwrite a b hab]

/-- C11 at a concrete input: with the options `WithTimeout 5s`,
`WithPollInterval 2s`, `WithLogger`, `WithTimeout 7s` in this order,
`NewReconciler` returns a Reconciler with timeout 7 seconds (the later of the
two), poll interval 2 seconds and the default creation grace period of 30
seconds. -/
theorem C11_newReconciler_last_option_wins_witness :
    ∃ r, NewReconciler sampleManager sampleKind
        [WithTimeout (5 * Second), WithPollInterval (2 * Second),
          WithLogger (some (.sink "controller")), WithTimeout (7 * Second)] = .ok r ∧
      r.timeout = 7 * Second ∧ r.pollInterval = 2 * Second ∧
      r.creationGracePeriod = 30 * Second := by
  have h := C11_newReconciler_last_option_wins sampleManager sampleKind
    [.withTimeout (5 * Second), .withPollInterval (2 * Second),
      .withLogger (some (.sink "controller")), .withTimeout (7 * Second)]
  obtain ⟨r, hr⟩ := h.2.1 (.firewall (some zeroFirewall)) (by decide)
  obtain ⟨hp, hg, ht⟩ := h.1 r hr
  refine ⟨r, hr, ?_, ?_, ?_⟩
  · rw [ht]; decide
  · rw [hp]; decide
  · rw [hg]; decide

end ProviderDna
